import Mathlib

/-!
Verification of the pcd_segmentation_interface core against its source.

Shallow embedding conventions:
- JavaScript numbers are modelled as rationals (ℚ); all numeric values the
  claims exercise are exactly representable, and no claim depends on
  floating-point rounding.
- `THREE.Vector2` / `THREE.Vector3` become `Vec2` / `Vec3` records of ℚ.
- Arrays become `List`, iterated in order; a JS `Set` is modelled as a `List`
  in insertion order (JS set iteration order is insertion order).
- Event dispatch becomes an explicit list of emitted events returned next to
  the new state; `console` diagnostics become a returned Bool flag.
-/

/-- A 2-D vector (`THREE.Vector2`). -/
structure Vec2 where
  x : ℚ
  y : ℚ
deriving DecidableEq

/-- A 3-D vector (`THREE.Vector3`). -/
structure Vec3 where
  x : ℚ
  y : ℚ
  z : ℚ
deriving DecidableEq

/-! ## MathUtils (src/unnamed/part_002) -/

/-- `isPointInCircle(center, radius, point)`: squared-distance test with a
strict inequality; `Math.pow(x, 2)` is the exact square. -/
def isPointInCircle (center : Vec2) (radius : ℚ) (point : Vec3) : Bool :=
  decide ((point.x - center.x) ^ 2 + (point.y - center.y) ^ 2 < radius ^ 2)

/-- `substitutePointOnLine(pointA, pointB, queryPoint)`: the signed
cross-product term relating the query point to one polygon edge. -/
def substitutePointOnLine (pointA pointB : Vec2) (queryPoint : Vec3) : ℚ :=
  ((queryPoint.y - pointA.y) * (pointB.x - pointA.x)) -
    ((queryPoint.x - pointA.x) * (pointB.y - pointA.y))

/-- The loop body of `isPointInPolygon`: iterates the remaining `fuel` edges
starting at vertex index `i`, carrying the accumulated winding number, with
the early `return false` on a zero cross term. List indexing `polygon[i]`
(always in range in the source loop) is modelled with a default vertex. -/
def isPointInPolygonAux (point : Vec3) (polygon : List Vec2) :
    ℕ → ℕ → ℤ → Bool
  | 0, _, windingNum => decide (windingNum ≠ 0)
  | fuel + 1, i, windingNum =>
    let a := polygon.getD i ⟨0, 0⟩
    let b := polygon.getD ((i + 1) % polygon.length) ⟨0, 0⟩
    let pointOnLine := substitutePointOnLine a b point
    if pointOnLine = 0 then false
    else if a.y ≤ point.y then
      if b.y > point.y then
        if pointOnLine > 0 then
          isPointInPolygonAux point polygon fuel (i + 1) (windingNum + 1)
        else isPointInPolygonAux point polygon fuel (i + 1) windingNum
      else isPointInPolygonAux point polygon fuel (i + 1) windingNum
    else
      if b.y < point.y then
        if pointOnLine < 0 then
          isPointInPolygonAux point polygon fuel (i + 1) (windingNum - 1)
        else isPointInPolygonAux point polygon fuel (i + 1) windingNum
      else isPointInPolygonAux point polygon fuel (i + 1) windingNum

/-- `isPointInPolygon(point, polygon)`: the winding-number containment test,
a `for` loop over all `polygon.length` edges starting from index 0 with
`windingNum = 0`. -/
def isPointInPolygon (point : Vec3) (polygon : List Vec2) : Bool :=
  isPointInPolygonAux point polygon polygon.length 0 0

/-- The cross term of edge `i` of the polygon, as the loop computes it. -/
def edgeCross (point : Vec3) (polygon : List Vec2) (i : ℕ) : ℚ :=
  substitutePointOnLine (polygon.getD i ⟨0, 0⟩)
    (polygon.getD ((i + 1) % polygon.length) ⟨0, 0⟩) point

/-- The winding contribution of edge `i` as the specification describes it:
+1 when the edge crosses the horizontal ray of the query point upward with a
positive cross term, -1 when it crosses downward with a negative cross term,
0 otherwise. -/
def windingContribution (point : Vec3) (polygon : List Vec2) (i : ℕ) : ℤ :=
  let a := polygon.getD i ⟨0, 0⟩
  let b := polygon.getD ((i + 1) % polygon.length) ⟨0, 0⟩
  let pointOnLine := substitutePointOnLine a b point
  if a.y ≤ point.y then
    if b.y > point.y then if pointOnLine > 0 then 1 else 0 else 0
  else
    if b.y < point.y then if pointOnLine < 0 then -1 else 0 else 0

/-- The winding contributions accumulated over the `fuel` edges starting at
edge `i`. -/
def windingSumFrom (point : Vec3) (polygon : List Vec2) : ℕ → ℕ → ℤ
  | 0, _ => 0
  | fuel + 1, i =>
    windingContribution point polygon i + windingSumFrom point polygon fuel (i + 1)

/-- The accumulated winding number over every edge of the polygon. -/
def windingNumber (point : Vec3) (polygon : List Vec2) : ℤ :=
  windingSumFrom point polygon polygon.length 0

lemma isPointInPolygonAux_zero_cross (point : Vec3) (polygon : List Vec2)
    (fuel i : ℕ) (w : ℤ) (hc : edgeCross point polygon i = 0) :
    isPointInPolygonAux point polygon (fuel + 1) i w = false := by
  have hc' : substitutePointOnLine (polygon.getD i ⟨0, 0⟩)
      (polygon.getD ((i + 1) % polygon.length) ⟨0, 0⟩) point = 0 := hc
  simp only [isPointInPolygonAux]
  rw [if_pos hc']

lemma isPointInPolygonAux_step (point : Vec3) (polygon : List Vec2)
    (fuel i : ℕ) (w : ℤ) (hc : edgeCross point polygon i ≠ 0) :
    isPointInPolygonAux point polygon (fuel + 1) i w =
      isPointInPolygonAux point polygon fuel (i + 1)
        (w + windingContribution point polygon i) := by
  have hc' : ¬ substitutePointOnLine (polygon.getD i ⟨0, 0⟩)
      (polygon.getD ((i + 1) % polygon.length) ⟨0, 0⟩) point = 0 := hc
  simp only [isPointInPolygonAux, windingContribution]
  rw [if_neg hc']
  split_ifs <;>
    exact congrArg (isPointInPolygonAux point polygon fuel (i + 1)) (by omega)

lemma isPointInPolygonAux_characterization (point : Vec3) (polygon : List Vec2) :
    ∀ (fuel i : ℕ) (w : ℤ),
      isPointInPolygonAux point polygon fuel i w = true ↔
        ((∀ k < fuel, edgeCross point polygon (i + k) ≠ 0) ∧
          w + windingSumFrom point polygon fuel i ≠ 0) := by
  intro fuel
  induction fuel with
  | zero =>
    intro i w
    simp [isPointInPolygonAux, windingSumFrom]
  | succ fuel ih =>
    intro i w
    by_cases hc : edgeCross point polygon i = 0
    · rw [isPointInPolygonAux_zero_cross point polygon fuel i w hc]
      simp only [Bool.false_eq_true, false_iff]
      rintro ⟨hall, -⟩
      exact hall 0 (by omega) hc
    · rw [isPointInPolygonAux_step point polygon fuel i w hc,
        ih (i + 1) (w + windingContribution point polygon i),
        show windingSumFrom point polygon (fuel + 1) i =
          windingContribution point polygon i +
            windingSumFrom point polygon fuel (i + 1) from rfl]
      constructor
      · rintro ⟨h1, h2⟩
        refine ⟨?_, by omega⟩
        intro k hk
        match k with
        | 0 => exact hc
        | k' + 1 =>
          have e : i + (k' + 1) = i + 1 + k' := by omega
          rw [e]
          exact h1 k' (by omega)
      · rintro ⟨hall, h2⟩
        refine ⟨?_, by omega⟩
        intro k hk
        have h := hall (k + 1) (by omega)
        have e : i + (k + 1) = i + 1 + k := by omega
        rw [e] at h
        exact h

/-- The unit square polygon of the specification test. -/
def unitSquare : List Vec2 := [⟨-1, -1⟩, ⟨1, -1⟩, ⟨1, 1⟩, ⟨-1, 1⟩]

/-- C1: `isPointInPolygon` returns true iff every edge has a nonzero cross
term and the accumulated winding number (+1 per upward crossing with positive
cross term, -1 per downward crossing with negative cross term) is nonzero; a
zero cross term on any edge forces the result false. On the unit square,
(0,0) is inside, (2,2) is outside and the edge point (1,0) is outside. -/
theorem isPointInPolygon_winding_characterization :
    (∀ (point : Vec3) (polygon : List Vec2),
      isPointInPolygon point polygon = true ↔
        ((∀ i < polygon.length, edgeCross point polygon i ≠ 0) ∧
          windingNumber point polygon ≠ 0)) ∧
    isPointInPolygon ⟨0, 0, 0⟩ unitSquare = true ∧
    isPointInPolygon ⟨2, 2, 0⟩ unitSquare = false ∧
    isPointInPolygon ⟨1, 0, 0⟩ unitSquare = false := by
  refine ⟨?_,
    by norm_num [isPointInPolygon, isPointInPolygonAux, unitSquare, substitutePointOnLine],
    by norm_num [isPointInPolygon, isPointInPolygonAux, unitSquare, substitutePointOnLine],
    by norm_num [isPointInPolygon, isPointInPolygonAux, unitSquare, substitutePointOnLine]⟩
  intro point polygon
  have h := isPointInPolygonAux_characterization point polygon polygon.length 0 0
  simpa [isPointInPolygon, windingNumber] using h

/-- C9: `isPointInCircle` is the strict squared-distance comparison, so
boundary points are excluded; with center (0,0) and radius 1, (1/2,1/2) is
inside and (1,0) is outside. -/
theorem isPointInCircle_spec :
    (∀ (center : Vec2) (radius : ℚ) (point : Vec3),
      isPointInCircle center radius point = true ↔
        (point.x - center.x) ^ 2 + (point.y - center.y) ^ 2 < radius ^ 2) ∧
    isPointInCircle ⟨0, 0⟩ 1 ⟨1 / 2, 1 / 2, 0⟩ = true ∧
    isPointInCircle ⟨0, 0⟩ 1 ⟨1, 0, 0⟩ = false := by
  refine ⟨?_, ?_, ?_⟩
  · intro center radius point
    simp [isPointInCircle]
  · norm_num [isPointInCircle]
  · norm_num [isPointInCircle]

/-! ## CoordinateFormat (src/src/config/CoordinateFormat.js) -/

/-- `THREE.Vector3.setComponent(index, value)`. -/
def Vec3.setComponent (v : Vec3) (i : Fin 3) (value : ℚ) : Vec3 :=
  match i with
  | ⟨0, _⟩ => { v with x := value }
  | ⟨1, _⟩ => { v with y := value }
  | ⟨2, _⟩ => { v with z := value }

/-- `THREE.Vector3.getComponent(index)`. -/
def Vec3.getComponent (v : Vec3) (i : Fin 3) : ℚ :=
  match i with
  | ⟨0, _⟩ => v.x
  | ⟨1, _⟩ => v.y
  | ⟨2, _⟩ => v.z

/-- `CoordinateFormatSpec`: an immutable named mapping between the project
axis order and the renderer axis order. -/
structure CoordinateFormatSpec where
  name : String
  xIdx : Fin 3
  yIdx : Fin 3
  zIdx : Fin 3

/-- `toProjectCoords(threeJSCoords)`: writes the renderer components into a
fresh zero vector (`new THREE.Vector3()`) at the instance indices. -/
def CoordinateFormatSpec.toProjectCoords (s : CoordinateFormatSpec)
    (threeJSCoords : Vec3) : Vec3 :=
  (((⟨0, 0, 0⟩ : Vec3).setComponent s.xIdx threeJSCoords.x).setComponent
      s.yIdx threeJSCoords.y).setComponent s.zIdx threeJSCoords.z

/-- `toThreeJSCoords(projectCoords)`: reads the components at the instance
indices into a new vector. -/
def CoordinateFormatSpec.toThreeJSCoords (s : CoordinateFormatSpec)
    (projectCoords : Vec3) : Vec3 :=
  { x := projectCoords.getComponent s.xIdx
    y := projectCoords.getComponent s.yIdx
    z := projectCoords.getComponent s.zIdx }

/-- The six frozen `CoordinateFormat` enum instances. -/
def CoordinateFormat.XYZ : CoordinateFormatSpec := ⟨"XYZ", 0, 1, 2⟩

def CoordinateFormat.XZY : CoordinateFormatSpec := ⟨"XZY", 0, 2, 1⟩

def CoordinateFormat.YXZ : CoordinateFormatSpec := ⟨"YXZ", 1, 0, 2⟩

def CoordinateFormat.YZX : CoordinateFormatSpec := ⟨"YZX", 2, 0, 1⟩

def CoordinateFormat.ZXY : CoordinateFormatSpec := ⟨"ZXY", 1, 2, 0⟩

def CoordinateFormat.ZYX : CoordinateFormatSpec := ⟨"ZYX", 2, 1, 0⟩

/-- The two conversions of an instance undo each other on every vector. -/
def CoordinateFormatSpec.mutualInverses (s : CoordinateFormatSpec) : Prop :=
  ∀ v : Vec3, s.toProjectCoords (s.toThreeJSCoords v) = v ∧
    s.toThreeJSCoords (s.toProjectCoords v) = v

/-- C2: for each of the six CoordinateFormat instances,
`toProjectCoords` and `toThreeJSCoords` are exact mutual inverses. -/
theorem CoordinateFormat.roundtrip_all :
    CoordinateFormat.XYZ.mutualInverses ∧ CoordinateFormat.XZY.mutualInverses ∧
    CoordinateFormat.YXZ.mutualInverses ∧ CoordinateFormat.YZX.mutualInverses ∧
    CoordinateFormat.ZXY.mutualInverses ∧ CoordinateFormat.ZYX.mutualInverses :=
  ⟨fun _ => ⟨rfl, rfl⟩, fun _ => ⟨rfl, rfl⟩, fun _ => ⟨rfl, rfl⟩,
    fun _ => ⟨rfl, rfl⟩, fun _ => ⟨rfl, rfl⟩, fun _ => ⟨rfl, rfl⟩⟩

/-! ## PointBuffer (src/unnamed/part_001) -/

/-- The outcome of a validate-warn-substitute check: the adopted value and
whether a diagnostic was logged to the console. -/
structure CheckResult where
  value : ℤ
  logged : Bool
deriving DecidableEq

/-- `checkNumChannels(data, numChannels)`: a count below 3 falls back to 3; a
count that does not evenly divide the data length falls back to the data
length. The JS `%` on the non-negative length and a positive count agrees
with `Int.emod`. The function is total: it never throws. -/
def checkNumChannels (data : List ℚ) (numChannels : ℤ) : CheckResult :=
  if numChannels < 3 then ⟨3, true⟩
  else if (data.length : ℤ) % numChannels ≠ 0 then ⟨(data.length : ℤ), true⟩
  else ⟨numChannels, false⟩

/-- `PointBuffer` state after construction. `numPoints` is stored as the JS
number `data.length / numChannels`, which need not be an integer. -/
structure PointBuffer where
  data : List ℚ
  format : CoordinateFormatSpec
  numChannels : ℤ
  numPoints : ℚ

/-- The `PointBuffer` constructor: cleans the channel count through
`checkNumChannels` and stores `numPoints = data.length / cleanedNumChannels`
with plain division and no floor. -/
def PointBuffer.construct (data : List ℚ) (format : CoordinateFormatSpec)
    (numChannels : ℤ) : PointBuffer :=
  let cleanedNumChannels := (checkNumChannels data numChannels).value
  { data := data
    format := format
    numChannels := cleanedNumChannels
    numPoints := (data.length : ℚ) / (cleanedNumChannels : ℚ) }

/-- lodash `_.clamp(x, lower, upper)`: the upper bound is applied first. -/
def lodashClamp (x lo hi : ℚ) : ℚ := max lo (min x hi)

/-- `PointBuffer.#checkPointIdx(pointIdx)`: an out-of-range index is clamped
into `[0, numPoints - 1]` (the logged warning is not modelled). -/
def PointBuffer.checkPointIdx (pb : PointBuffer) (pointIdx : ℚ) : ℚ :=
  if pointIdx < 0 ∨ pb.numPoints ≤ pointIdx then
    lodashClamp pointIdx 0 (pb.numPoints - 1)
  else pointIdx

/-- A JS typed-array slice bound: fractional values are truncated toward
zero; every value reaching it here is non-negative, where truncation is the
floor. -/
def jsSliceIdx (q : ℚ) : ℕ := (⌊q⌋).toNat

/-- `PointBuffer.getPoint(pointIdx)`: after the index check, returns
`data.slice(numChannels * i, numChannels * (i + 1))`. -/
def PointBuffer.getPoint (pb : PointBuffer) (pointIdx : ℚ) : List ℚ :=
  let cleanedPointIdx := pb.checkPointIdx pointIdx
  (pb.data.take (jsSliceIdx ((pb.numChannels : ℚ) * (cleanedPointIdx + 1)))).drop
    (jsSliceIdx ((pb.numChannels : ℚ) * cleanedPointIdx))

lemma checkNumChannels_value_pos (data : List ℚ) (numChannels : ℤ) :
    0 < (checkNumChannels data numChannels).value := by
  simp only [checkNumChannels]
  split_ifs with h1 h2
  · show (0 : ℤ) < 3
    norm_num
  · show (0 : ℤ) < (data.length : ℤ)
    rcases Nat.eq_zero_or_pos data.length with h | h
    · rw [h] at h2
      simp at h2
    · exact_mod_cast h
  · show (0 : ℤ) < numChannels
    omega

lemma checkNumChannels_dvd (data : List ℚ) (numChannels : ℤ)
    (h3 : 3 ≤ numChannels) :
    (checkNumChannels data numChannels).value ∣ (data.length : ℤ) := by
  simp only [checkNumChannels]
  rw [if_neg (by omega : ¬ numChannels < 3)]
  by_cases hmod : (data.length : ℤ) % numChannels ≠ 0
  · rw [if_pos hmod]
  · rw [if_neg hmod]
    show numChannels ∣ (data.length : ℤ)
    exact Int.dvd_of_emod_eq_zero (not_not.mp hmod)

lemma rat_div_eq_floor_of_dvd (len : ℕ) (c : ℤ) (hc : 0 < c)
    (h : c ∣ (len : ℤ)) :
    (len : ℚ) / (c : ℚ) = ((⌊(len : ℚ) / (c : ℚ)⌋ : ℤ) : ℚ) := by
  obtain ⟨k, hk⟩ := h
  have hc0 : (c : ℚ) ≠ 0 := by exact_mod_cast hc.ne'
  have hlen : (len : ℚ) = (c : ℚ) * (k : ℚ) := by exact_mod_cast hk
  have hdiv : (len : ℚ) / (c : ℚ) = (k : ℚ) := by
    rw [hlen, mul_div_cancel_left₀ _ hc0]
  rw [hdiv, Int.floor_intCast]

/-- C8: `checkNumChannels` keeps a requested count that is at least 3 and
evenly divides the data length; it logs and falls back to 3 when the count is
below 3, and logs and falls back to the data length itself when the count
does not evenly divide it; on a 10-element array with 3 channels it logs and
returns 10. It is a total function, so it never throws. -/
theorem checkNumChannels_spec :
    (∀ (data : List ℚ) (numChannels : ℤ),
      (3 ≤ numChannels → (data.length : ℤ) % numChannels = 0 →
        checkNumChannels data numChannels = ⟨numChannels, false⟩) ∧
      (numChannels < 3 → checkNumChannels data numChannels = ⟨3, true⟩) ∧
      (3 ≤ numChannels → (data.length : ℤ) % numChannels ≠ 0 →
        checkNumChannels data numChannels = ⟨(data.length : ℤ), true⟩)) ∧
    checkNumChannels [1, 2, 3, 4, 5, 6, 7, 8, 9, 10] 3 = ⟨10, true⟩ := by
  constructor
  · intro data numChannels
    refine ⟨?_, ?_, ?_⟩
    · intro h3 hmod
      simp only [checkNumChannels]
      rw [if_neg (by omega : ¬ numChannels < 3), if_neg (not_not_intro hmod)]
    · intro h
      simp only [checkNumChannels]
      rw [if_pos h]
    · intro h3 hmod
      simp only [checkNumChannels]
      rw [if_neg (by omega : ¬ numChannels < 3), if_pos hmod]
  · norm_num [checkNumChannels]

/-- C7 counterexample: constructing a PointBuffer from 4 data values with a
requested channel count of 2 triggers the below-3 fallback to 3 channels, and
the stored `numPoints` is then 4/3, which differs from
`floor(data.length / numChannels) = 1`. -/
theorem numPoints_floor_counterexample :
    (PointBuffer.construct [1, 2, 3, 4] CoordinateFormat.XYZ 2).numChannels = 3 ∧
    (PointBuffer.construct [1, 2, 3, 4] CoordinateFormat.XYZ 2).numPoints ≠
      ((⌊((PointBuffer.construct [1, 2, 3, 4] CoordinateFormat.XYZ 2).data.length : ℚ) /
          ((PointBuffer.construct [1, 2, 3, 4] CoordinateFormat.XYZ 2).numChannels : ℚ)⌋ : ℤ) : ℚ) := by
  constructor
  · norm_num [PointBuffer.construct, checkNumChannels]
  · norm_num [PointBuffer.construct, checkNumChannels]

/-- C7 amended: after construction `numPoints` is the exact (unfloored)
quotient `data.length / numChannels` of the stored channel count; whenever
the stored channel count divides the data length — which always holds when
the requested count was at least 3 — this equals the floored quotient; the
12-value, 3-channel example has `numPoints = 4` and `getPoint(0)` returns the
first 3 data values. Only the below-3 fallback can leave a fractional
`numPoints`. -/
theorem numPoints_division_spec :
    (∀ (data : List ℚ) (format : CoordinateFormatSpec) (numChannels : ℤ),
      (PointBuffer.construct data format numChannels).numPoints =
        ((PointBuffer.construct data format numChannels).data.length : ℚ) /
          ((PointBuffer.construct data format numChannels).numChannels : ℚ) ∧
      (3 ≤ numChannels →
        (PointBuffer.construct data format numChannels).numChannels ∣
          (data.length : ℤ)) ∧
      ((PointBuffer.construct data format numChannels).numChannels ∣
          (data.length : ℤ) →
        (PointBuffer.construct data format numChannels).numPoints =
          ((⌊(data.length : ℚ) /
              ((PointBuffer.construct data format numChannels).numChannels : ℚ)⌋ : ℤ) : ℚ))) ∧
    (PointBuffer.construct [1, 2, 3, 4, 5, 6, 7, 8, 9, 10, 11, 12]
      CoordinateFormat.XYZ 3).numPoints = 4 ∧
    (PointBuffer.construct [1, 2, 3, 4, 5, 6, 7, 8, 9, 10, 11, 12]
      CoordinateFormat.XYZ 3).getPoint 0 = [1, 2, 3] := by
  refine ⟨?_, ?_, ?_⟩
  · intro data format numChannels
    refine ⟨rfl, fun h3 => checkNumChannels_dvd data numChannels h3, fun hdvd => ?_⟩
    exact rat_div_eq_floor_of_dvd data.length _
      (checkNumChannels_value_pos data numChannels) hdvd
  · norm_num [PointBuffer.construct, checkNumChannels]
  · norm_num [PointBuffer.getPoint, PointBuffer.checkPointIdx,
      PointBuffer.construct, checkNumChannels, jsSliceIdx, lodashClamp,
      List.drop_zero]
    rfl

/-! ## Picker (src/src/picker/Picker.js; CollectionUtils.every lives next to
src/src/model/SegmentPcd.js) -/

/-- `CollectionUtils.every(collection, predicate)`: true when all elements
pass, true on the empty collection. -/
def every {α : Type} (collection : List α) (predicate : α → Bool) : Bool :=
  match collection with
  | [] => true
  | v :: rest => if ! predicate v then false else every rest predicate

/-- The four event names a `Picker` dispatches. -/
inductive PickerEventType where
  | hoverin
  | hoverout
  | selectin
  | selectout
deriving DecidableEq

/-- A `PickerEvent`: the event name, its subject and the pointer-origin
flag. -/
structure PickerEvent (α : Type) where
  type : PickerEventType
  object : Option α
  isFromPointer : Bool
deriving DecidableEq

/-- The state of a `Picker`. `raycastFunc` returns the distances of the
intersections between an object and the current ray, sorted from closest to
furthest (each `THREE.Intersection` is represented by its distance; the
raycaster is folded into the function). The `objects` iterable is a list in
insertion order. -/
structure PickerState (α : Type) where
  objects : List α
  hoveredObj : Option α
  selectedObj : Option α
  hoverEnabled : Bool
  selectEnabled : Bool
  raycastFunc : α → List ℚ

/-- The body of the `for` loop of `Picker.getHoveredObj()`: `none` stands for
the initial `(null, +Infinity)` pair, which any intersection distance
beats. -/
def pickStep {α : Type} (raycastFunc : α → List ℚ)
    (acc : Option (α × ℚ)) (obj : α) : Option (α × ℚ) :=
  match raycastFunc obj with
  | [] => acc
  | distance :: _ =>
    match acc with
    | none => some (obj, distance)
    | some (hoveredObj, minDistance) =>
      if distance < minDistance then some (obj, distance)
      else some (hoveredObj, minDistance)

/-- The `for` loop of `Picker.getHoveredObj()` over the object list. -/
def getHoveredObjLoop {α : Type} (raycastFunc : α → List ℚ) :
    List α → Option (α × ℚ) → Option (α × ℚ)
  | [], acc => acc
  | obj :: rest, acc =>
    getHoveredObjLoop raycastFunc rest (pickStep raycastFunc acc obj)

/-- `Picker.getHoveredObj()`: the object of the tracked pair, `null` when no
object intersected. -/
def getHoveredObj {α : Type} (objects : List α)
    (raycastFunc : α → List ℚ) : Option α :=
  (getHoveredObjLoop raycastFunc objects none).map Prod.fst

lemma getHoveredObjLoop_none_iff {α : Type} (f : α → List ℚ) :
    ∀ (l : List α) (acc : Option (α × ℚ)),
      getHoveredObjLoop f l acc = none ↔ (acc = none ∧ ∀ o ∈ l, f o = []) := by
  intro l
  induction l with
  | nil =>
    intro acc
    simp [getHoveredObjLoop]
  | cons o rest ih =>
    intro acc
    rw [getHoveredObjLoop, ih]
    cases hf : f o with
    | nil =>
      simp [pickStep, hf]
    | cons d tl =>
      cases acc with
      | none => simp [pickStep, hf]
      | some p =>
        rcases p with ⟨h0, m⟩
        by_cases hd : d < m <;> simp [pickStep, hf, hd]


lemma pickStep_nil {α : Type} (f : α → List ℚ) (acc : Option (α × ℚ))
    (o : α) (hf : f o = []) : pickStep f acc o = acc := by
  simp only [pickStep, hf]

lemma pickStep_cons_none {α : Type} (f : α → List ℚ) (o : α) (dd : ℚ)
    (tl : List ℚ) (hf : f o = dd :: tl) : pickStep f none o = some (o, dd) := by
  simp only [pickStep, hf]

lemma pickStep_cons_lt {α : Type} (f : α → List ℚ) (o p : α) (dd m : ℚ)
    (tl : List ℚ) (hf : f o = dd :: tl) (hlt : dd < m) :
    pickStep f (some (p, m)) o = some (o, dd) := by
  simp only [pickStep, hf]
  rw [if_pos hlt]

lemma pickStep_cons_ge {α : Type} (f : α → List ℚ) (o p : α) (dd m : ℚ)
    (tl : List ℚ) (hf : f o = dd :: tl) (hge : ¬ dd < m) :
    pickStep f (some (p, m)) o = some (p, m) := by
  simp only [pickStep, hf]
  rw [if_neg hge]

lemma getHoveredObjLoop_some {α : Type} (f : α → List ℚ) :
    ∀ (l : List α) (acc : Option (α × ℚ)) (o : α) (d : ℚ),
      getHoveredObjLoop f l acc = some (o, d) →
        (acc = some (o, d) ∧
          ∀ o' ∈ l, ∀ d' tl, f o' = d' :: tl → d ≤ d') ∨
        (∃ l₁ l₂, l = l₁ ++ o :: l₂ ∧ (f o).head? = some d ∧
          (∀ p m, acc = some (p, m) → d < m) ∧
          (∀ o' ∈ l₁, ∀ d' tl, f o' = d' :: tl → d < d') ∧
          (∀ o' ∈ l, ∀ d' tl, f o' = d' :: tl → d ≤ d')) := by
  intro l
  induction l with
  | nil =>
    intro acc o d h
    simp only [getHoveredObjLoop] at h
    exact Or.inl ⟨h, by simp⟩
  | cons o' rest ih =>
    intro acc o d h
    rw [getHoveredObjLoop] at h
    rcases ih (pickStep f acc o') o d h with ⟨hacc, hmin⟩ | hright
    · -- the winner is already the accumulator produced by the step on o'
      cases hf : f o' with
      | nil =>
        rw [pickStep_nil f acc o' hf] at hacc
        refine Or.inl ⟨hacc, ?_⟩
        intro x hx d' tl hfx
        rw [List.mem_cons] at hx
        rcases hx with rfl | hx
        · rw [hf] at hfx
          simp at hfx
        · exact hmin x hx d' tl hfx
      | cons dd tl =>
        cases acc with
        | none =>
          rw [pickStep_cons_none f o' dd tl hf] at hacc
          simp only [Option.some.injEq, Prod.mk.injEq] at hacc
          obtain ⟨rfl, rfl⟩ := hacc
          refine Or.inr ⟨[], rest, rfl, by rw [hf]; rfl, by simp, by simp, ?_⟩
          intro x hx d' tl' hfx
          rw [List.mem_cons] at hx
          rcases hx with rfl | hx
          · rw [hf] at hfx
            injection hfx with h1 h2
            exact le_of_eq h1
          · exact hmin x hx d' tl' hfx
        | some p =>
          rcases p with ⟨h0, m⟩
          by_cases hlt : dd < m
          · rw [pickStep_cons_lt f o' h0 dd m tl hf hlt] at hacc
            simp only [Option.some.injEq, Prod.mk.injEq] at hacc
            obtain ⟨rfl, rfl⟩ := hacc
            refine Or.inr ⟨[], rest, rfl, by rw [hf]; rfl, ?_, by simp, ?_⟩
            · intro p' m' hp
              simp only [Option.some.injEq, Prod.mk.injEq] at hp
              obtain ⟨-, rfl⟩ := hp
              exact hlt
            · intro x hx d' tl' hfx
              rw [List.mem_cons] at hx
              rcases hx with rfl | hx
              · rw [hf] at hfx
                injection hfx with h1 h2
                exact le_of_eq h1
              · exact hmin x hx d' tl' hfx
          · rw [pickStep_cons_ge f o' h0 dd m tl hf hlt] at hacc
            refine Or.inl ⟨hacc, ?_⟩
            simp only [Option.some.injEq, Prod.mk.injEq] at hacc
            obtain ⟨-, rfl⟩ := hacc
            intro x hx d' tl' hfx
            rw [List.mem_cons] at hx
            rcases hx with rfl | hx
            · rw [hf] at hfx
              injection hfx with h1 h2
              rw [← h1]
              exact le_of_not_lt hlt
            · exact hmin x hx d' tl' hfx
    · -- the winner was found strictly inside rest
      obtain ⟨l₁, l₂, hsplit, hhd, haccm, hl₁, hminrest⟩ := hright
      have hstepl : ∀ d' tl, f o' = d' :: tl → d < d' := by
        intro d' tl hf
        cases acc with
        | none =>
          exact haccm o' d' (pickStep_cons_none f o' d' tl hf)
        | some p =>
          rcases p with ⟨h0, m⟩
          by_cases hlt : d' < m
          · exact haccm o' d' (pickStep_cons_lt f o' h0 d' m tl hf hlt)
          · have hm := haccm h0 m (pickStep_cons_ge f o' h0 d' m tl hf hlt)
            exact lt_of_lt_of_le hm (le_of_not_lt hlt)
      have haccm' : ∀ p m, acc = some (p, m) → d < m := by
        intro p m hp
        subst hp
        cases hf : f o' with
        | nil =>
          exact haccm p m (pickStep_nil f (some (p, m)) o' hf)
        | cons dd tl =>
          by_cases hlt : dd < m
          · have := haccm o' dd (pickStep_cons_lt f o' p dd m tl hf hlt)
            exact lt_trans this hlt
          · exact haccm p m (pickStep_cons_ge f o' p dd m tl hf hlt)
      refine Or.inr ⟨o' :: l₁, l₂, by rw [hsplit]; rfl, hhd, haccm', ?_, ?_⟩
      · intro x hx d' tl' hfx
        rw [List.mem_cons] at hx
        rcases hx with rfl | hx
        · exact hstepl d' tl' hfx
        · exact hl₁ x hx d' tl' hfx
      · intro x hx d' tl' hfx
        rw [List.mem_cons] at hx
        rcases hx with rfl | hx
        · exact le_of_lt (hstepl d' tl' hfx)
        · exact hminrest x hx d' tl' hfx

/-- C3: `getHoveredObj` returns null iff no object intersects; a returned
object belongs to the object list, intersects the ray, carries the globally
minimum first-intersection distance, and every object listed before it has a
strictly larger first distance (ties go to the first object in iteration
order, and empty intersection lists are skipped); consequently on a replaced
object list that lacks some object, the query can never return that
object. -/
theorem getHoveredObj_nearest_spec :
    ∀ {α : Type} (objects : List α) (raycastFunc : α → List ℚ),
      (getHoveredObj objects raycastFunc = none ↔
        ∀ o ∈ objects, raycastFunc o = []) ∧
      (∀ o, getHoveredObj objects raycastFunc = some o →
        ∃ d l₁ l₂, objects = l₁ ++ o :: l₂ ∧
          (raycastFunc o).head? = some d ∧
          (∀ o' ∈ objects, ∀ d' tl, raycastFunc o' = d' :: tl → d ≤ d') ∧
          (∀ o' ∈ l₁, ∀ d' tl, raycastFunc o' = d' :: tl → d < d')) ∧
      (∀ (objectsReplaced : List α) (o : α), o ∉ objectsReplaced →
        getHoveredObj objectsReplaced raycastFunc ≠ some o) := by
  have key : ∀ {α : Type} (l : List α) (f : α → List ℚ) (o : α),
      getHoveredObj l f = some o →
        ∃ d l₁ l₂, l = l₁ ++ o :: l₂ ∧ (f o).head? = some d ∧
          (∀ o' ∈ l, ∀ d' tl, f o' = d' :: tl → d ≤ d') ∧
          (∀ o' ∈ l₁, ∀ d' tl, f o' = d' :: tl → d < d') := by
    intro α l f o h
    rw [getHoveredObj] at h
    rcases Option.map_eq_some'.mp h with ⟨⟨o', d⟩, hloop, hfst⟩
    cases hfst
    rcases getHoveredObjLoop_some f l none o' d hloop with ⟨hacc, -⟩ | hr
    · cases hacc
    · obtain ⟨l₁, l₂, hsplit, hhd, -, hl₁, hmin⟩ := hr
      exact ⟨d, l₁, l₂, hsplit, hhd, hmin, hl₁⟩
  intro α objects raycastFunc
  refine ⟨?_, ?_, ?_⟩
  · rw [getHoveredObj, Option.map_eq_none', getHoveredObjLoop_none_iff]
    simp
  · intro o h
    exact key objects raycastFunc o h
  · intro objs o hno h
    obtain ⟨d, l₁, l₂, hsplit, -, -, -⟩ := key objs raycastFunc o h
    exact hno (by rw [hsplit]; simp)

lemma every_ne_decide {α : Type} [DecidableEq α] (l : List α) (a : α) :
    every l (fun e => decide (e ≠ a)) = decide (a ∉ l) := by
  induction l with
  | nil => simp [every]
  | cons v rest ih =>
    simp only [decide_not] at ih
    by_cases hv : v = a
    · subst hv
      simp [every]
    · simp [every, hv, ih, List.mem_cons, Ne.symm hv]

lemma every_ne_decide_not {α : Type} [DecidableEq α] (l : List α) (a : α) :
    every l (fun e => !decide (e = a)) = !decide (a ∈ l) := by
  have h := every_ne_decide l a
  simpa [decide_not] using h

/-- `Picker.#setHoveredObj(value, isFromPointer)`: the guarded write. The
returned triple is the new state, the dispatched events in dispatch order,
and whether the does-not-interact console warning fired. -/
def setHoveredObj {α : Type} [DecidableEq α] (s : PickerState α)
    (value : Option α) (isFromPointer : Bool) :
    PickerState α × List (PickerEvent α) × Bool :=
  let prevHoveredObj := s.hoveredObj
  if prevHoveredObj ≠ value then
    let outEvents : List (PickerEvent α) :=
      match prevHoveredObj with
      | some prev => [⟨.hoverout, some prev, isFromPointer⟩]
      | none => []
    match value with
    | some a =>
      ({ s with hoveredObj := value },
        outEvents ++ [⟨.hoverin, some a, isFromPointer⟩],
        every s.objects (fun e => decide (e ≠ a)))
    | none => ({ s with hoveredObj := value }, outEvents, false)
  else (s, [], false)

/-- `Picker.#setSelectedObj(value, isFromPointer)`: the guarded write. -/
def setSelectedObj {α : Type} [DecidableEq α] (s : PickerState α)
    (value : Option α) (isFromPointer : Bool) :
    PickerState α × List (PickerEvent α) × Bool :=
  let prevSelectedObj := s.selectedObj
  if prevSelectedObj ≠ value then
    let outEvents : List (PickerEvent α) :=
      match prevSelectedObj with
      | some prev => [⟨.selectout, some prev, isFromPointer⟩]
      | none => []
    match value with
    | some a =>
      ({ s with selectedObj := value },
        outEvents ++ [⟨.selectin, some a, isFromPointer⟩],
        every s.objects (fun e => decide (e ≠ a)))
    | none => ({ s with selectedObj := value }, outEvents, false)
  else (s, [], false)

/-- The `hoverEnabled` setter: stores the flag, then re-resolves the hovered
object when enabling and un-hovers (`hoveredObj = null`, a programmatic
transition) when disabling. -/
def setHoverEnabled {α : Type} [DecidableEq α] (s : PickerState α)
    (value : Bool) : PickerState α × List (PickerEvent α) × Bool :=
  let s1 := { s with hoverEnabled := value }
  if value then setHoveredObj s1 (getHoveredObj s1.objects s1.raycastFunc) false
  else setHoveredObj s1 none false

/-- The `selectEnabled` field is a plain public field: assigning it runs no
setter logic and dispatches nothing. -/
def setSelectEnabled {α : Type} (s : PickerState α) (value : Bool) :
    PickerState α × List (PickerEvent α) × Bool :=
  ({ s with selectEnabled := value }, [], false)

/-- C6: hover/select assignment is a guarded write: an unchanged value emits
nothing and leaves the state as it was; a changed value updates the state,
emits the out event for the previous non-null object and then the in event
for the new non-null object, both flagged with the pointer origin, and the
consistency warning fires exactly when the newly assigned object is absent
from the tracked object list (the transition still happens). -/
theorem setObj_guarded_write_spec :
    ∀ {α : Type} [DecidableEq α] (s : PickerState α) (value : Option α)
      (isFromPointer : Bool),
      (value = s.hoveredObj →
        setHoveredObj s value isFromPointer = (s, [], false)) ∧
      (value ≠ s.hoveredObj →
        setHoveredObj s value isFromPointer =
          ({ s with hoveredObj := value },
            (s.hoveredObj.elim []
              fun prev => [⟨.hoverout, some prev, isFromPointer⟩]) ++
              (value.elim [] fun a => [⟨.hoverin, some a, isFromPointer⟩]),
            value.elim false fun a => decide (a ∉ s.objects))) ∧
      (value = s.selectedObj →
        setSelectedObj s value isFromPointer = (s, [], false)) ∧
      (value ≠ s.selectedObj →
        setSelectedObj s value isFromPointer =
          ({ s with selectedObj := value },
            (s.selectedObj.elim []
              fun prev => [⟨.selectout, some prev, isFromPointer⟩]) ++
              (value.elim [] fun a => [⟨.selectin, some a, isFromPointer⟩]),
            value.elim false fun a => decide (a ∉ s.objects))) := by
  intro α inst s value isFromPointer
  refine ⟨?_, ?_, ?_, ?_⟩
  · intro h
    simp only [setHoveredObj]
    rw [if_neg (not_not_intro h.symm)]
  · intro h
    simp only [setHoveredObj]
    rw [if_pos (Ne.symm h)]
    cases hprev : s.hoveredObj with
    | none =>
      cases hval : value with
      | none => exact absurd (hval.trans hprev.symm) h
      | some a => simp [every_ne_decide_not]
    | some prev =>
      cases hval : value with
      | none => simp
      | some a => simp [every_ne_decide_not]
  · intro h
    simp only [setSelectedObj]
    rw [if_neg (not_not_intro h.symm)]
  · intro h
    simp only [setSelectedObj]
    rw [if_pos (Ne.symm h)]
    cases hprev : s.selectedObj with
    | none =>
      cases hval : value with
      | none => exact absurd (hval.trans hprev.symm) h
      | some a => simp [every_ne_decide_not]
    | some prev =>
      cases hval : value with
      | none => simp
      | some a => simp [every_ne_decide_not]

/-- C10: disabling hover un-hovers (the hovered object becomes null, with a
programmatic hoverout exactly when one was hovered) and touches neither the
selected object nor the object list; disabling select changes only the
`selectEnabled` flag, emits nothing, and the selected object stays
selected. -/
theorem enable_toggle_spec :
    ∀ {α : Type} [DecidableEq α] (s : PickerState α),
      ((setHoverEnabled s false).1.hoveredObj = none) ∧
      ((setHoverEnabled s false).1.selectedObj = s.selectedObj) ∧
      ((setHoverEnabled s false).1.objects = s.objects) ∧
      ((setHoverEnabled s false).1.hoverEnabled = false) ∧
      ((setHoverEnabled s false).1.selectEnabled = s.selectEnabled) ∧
      ((setHoverEnabled s false).2.1 =
        s.hoveredObj.elim [] fun prev => [⟨.hoverout, some prev, false⟩]) ∧
      ((setHoverEnabled s false).2.2 = false) ∧
      (setSelectEnabled s false =
        ({ s with selectEnabled := false }, [], false)) ∧
      ((setSelectEnabled s false).1.hoveredObj = s.hoveredObj) ∧
      ((setSelectEnabled s false).1.selectedObj = s.selectedObj) ∧
      ((setSelectEnabled s false).1.objects = s.objects) := by
  intro α inst s
  cases hprev : s.hoveredObj with
  | none =>
    simp [setHoverEnabled, setHoveredObj, setSelectEnabled, hprev]
  | some prev =>
    simp [setHoverEnabled, setHoveredObj, setSelectEnabled, hprev]

/-! ## ThreeUtils (src/src/utils/ThreeUtils.js) -/

/-- `isCoordinatesInArray(array, point)`: `Array.some` with
`THREE.Vector3.equals`, which is component-wise equality. -/
def isCoordinatesInArray (array : List Vec3) (point : Vec3) : Bool :=
  array.any (fun vec => decide (vec = point))

/-- `differenceOfArrays(arrA, arrB)`: keeps the points of `arrA` whose
coordinates appear nowhere in `arrB`. -/
def differenceOfArrays (arrA arrB : List Vec3) : List Vec3 :=
  arrA.filter (fun point => ! isCoordinatesInArray arrB point)

/-! ## EditSelection (src/src/scene/widgets/SelectionInput.js) -/

/-- The two `DrawMode` values of the Scene typedef (add and erase); the
switch default branch of `modifySelection` is unreachable for these. -/
inductive DrawMode where
  | add
  | erase
deriving DecidableEq

/-- A drawn shape: the `Circle` record or a polygon vertex array (the source
dispatches on `object instanceof Array`). -/
inductive Shape where
  | circle (center : Vec2) (radius : ℚ)
  | polygon (vertices : List Vec2)

/-- The containment predicate both query helpers apply to one cached NDC
point. -/
def shapeContains (object : Shape) (pointNDC : Vec3) : Bool :=
  match object with
  | .polygon vertices => isPointInPolygon pointNDC vertices
  | .circle center radius => isPointInCircle center radius pointNDC

/-- A `LabelClass` taxonomy entry. -/
structure LabelClass where
  id : ℤ
  name : String
  color : String
deriving DecidableEq

/-- A `LabelSelection`: id (a JS number), points, cached NDC projections,
display point size and mutable label class (none until assigned). -/
structure LabelSelection where
  id : ℚ
  points : List Vec3
  pointsNDC : List Vec3
  pointSize : ℚ
  labelClass : Option LabelClass

/-- A `PointCloud` as `EditSelection` consumes it: `coords` is the value of
`buffer.getCoords()` (the renderer-frame point coordinates in point order),
`bufferNDC` the cached NDC projections, `pointSize` the display size. -/
structure PointCloud where
  coords : List Vec3
  bufferNDC : List Vec3
  pointSize : ℚ

/-- The JS `array.filter((_, i) => pred(ndc[i]))` pattern shared by
`#queryPointFromPcd` and `#queryPointFromSelection`: keeps the elements whose
index-aligned cached NDC point satisfies the predicate. An out-of-range NDC
lookup is modelled by the zero vector; the claims only use caches of matching
length, where the default is never read. -/
def filterByNDC (pred : Vec3 → Bool) (ndc : List Vec3) :
    List Vec3 → ℕ → List Vec3
  | [], _ => []
  | p :: ps, i =>
    if pred (ndc.getD i ⟨0, 0, 0⟩) then p :: filterByNDC pred ndc ps (i + 1)
    else filterByNDC pred ndc ps (i + 1)

/-- `EditSelection.#queryPointFromPcd(object, pointCloud)`. -/
def queryPointFromPcd (object : Shape) (pointCloud : PointCloud) :
    List Vec3 :=
  filterByNDC (shapeContains object) pointCloud.bufferNDC pointCloud.coords 0

/-- `EditSelection.#queryPointFromSelection(object, selection)`. -/
def queryPointFromSelection (object : Shape) (selection : LabelSelection) :
    List Vec3 :=
  filterByNDC (shapeContains object) selection.pointsNDC selection.points 0

/-- The two event names `EditSelection` dispatches. -/
inductive EditEventType where
  | selectionAdded
  | selectionChanged
deriving DecidableEq

/-- An `EditSelection` event: its name, the label selection it carries and
the queried (matched) points. -/
structure EditSelectionEvent where
  type : EditEventType
  labelSelection : LabelSelection
  queriedPoints : List Vec3

/-- `EditSelection.createSelection(object, labelClass, pointCloud)`: queries
the cloud and, when at least one point matched, builds the new
`LabelSelection` (id `Math.random() * 100 + 5`, with the random draw passed
in as `randomId`), assigns the label class and dispatches selection-added;
otherwise nothing happens. The result is the dispatched event, if any. -/
def createSelection (object : Shape) (labelClass : LabelClass)
    (pointCloud : PointCloud) (randomId : ℚ) : Option EditSelectionEvent :=
  let pointsInObj := queryPointFromPcd object pointCloud
  let selectionPoints := pointsInObj
  if 0 < selectionPoints.length then
    let newLabelSelection : LabelSelection :=
      { id := randomId * 100 + 5
        points := selectionPoints
        pointsNDC := []
        pointSize := pointCloud.pointSize
        labelClass := some labelClass }
    some ⟨.selectionAdded, newLabelSelection, pointsInObj⟩
  else none

/-- `EditSelection.modifySelection(object, pointCloud, labelSelection,
mode)`: add concatenates the cloud matches in front of the selection points;
erase queries the matches from the selection itself and subtracts them.
Returns the updated selection (`updateSelectionPoints`) together with the
dispatched selection-changed event. -/
def modifySelection (object : Shape) (pointCloud : PointCloud)
    (labelSelection : LabelSelection) (mode : DrawMode) :
    LabelSelection × EditSelectionEvent :=
  let selectionElement := labelSelection.points
  match mode with
  | .add =>
    let pointsInObj := queryPointFromPcd object pointCloud
    let selectionPoints := pointsInObj ++ selectionElement
    ({ labelSelection with points := selectionPoints },
      ⟨.selectionChanged, { labelSelection with points := selectionPoints },
        pointsInObj⟩)
  | .erase =>
    let pointsInObj := queryPointFromSelection object labelSelection
    let selectionPoints := differenceOfArrays selectionElement pointsInObj
    ({ labelSelection with points := selectionPoints },
      ⟨.selectionChanged, { labelSelection with points := selectionPoints },
        pointsInObj⟩)

lemma filterByNDC_map (pred : Vec3 → Bool) (proj : Vec3 → Vec3) :
    ∀ (pts pre : List Vec3),
      filterByNDC pred (pre ++ pts.map proj) pts pre.length =
        pts.filter (fun p => pred (proj p)) := by
  intro pts
  induction pts with
  | nil =>
    intro pre
    simp [filterByNDC]
  | cons p ps ih =>
    intro pre
    have hget : (pre ++ (p :: ps).map proj).getD pre.length ⟨0, 0, 0⟩ =
        proj p := by
      rw [List.getD_append_right _ _ _ _ (le_refl pre.length)]
      simp
    rw [filterByNDC, hget]
    rw [show pre ++ (p :: ps).map proj = (pre ++ [proj p]) ++ ps.map proj by
      simp]
    rw [show pre.length + 1 = (pre ++ [proj p]).length by simp]
    rw [ih (pre ++ [proj p])]
    by_cases hp : pred (proj p)
    · simp [hp, List.filter_cons]
    · simp [hp, List.filter_cons]

lemma queryPointFromSelection_proj (object : Shape)
    (selection : LabelSelection) (proj : Vec3 → Vec3)
    (h : selection.pointsNDC = selection.points.map proj) :
    queryPointFromSelection object selection =
      selection.points.filter (fun p => shapeContains object (proj p)) := by
  rw [queryPointFromSelection, h]
  simpa using filterByNDC_map (shapeContains object) proj selection.points []

lemma queryPointFromPcd_proj (object : Shape) (pointCloud : PointCloud)
    (proj : Vec3 → Vec3)
    (h : pointCloud.bufferNDC = pointCloud.coords.map proj) :
    queryPointFromPcd object pointCloud =
      pointCloud.coords.filter (fun p => shapeContains object (proj p)) := by
  rw [queryPointFromPcd, h]
  simpa using filterByNDC_map (shapeContains object) proj pointCloud.coords []

lemma differenceOfArrays_filter (pts : List Vec3) (g : Vec3 → Bool) :
    differenceOfArrays pts (pts.filter g) = pts.filter (fun p => ! g p) := by
  rw [differenceOfArrays]
  apply List.filter_congr
  intro p hp
  have hiff : isCoordinatesInArray (pts.filter g) p = g p := by
    by_cases hg : g p = true
    · have hmem : p ∈ pts.filter g := List.mem_filter.mpr ⟨hp, hg⟩
      rw [hg]
      simp only [isCoordinatesInArray, List.any_eq_true]
      exact ⟨p, hmem, by simp⟩
    · rw [Bool.eq_false_iff.mpr hg]
      simp only [isCoordinatesInArray, List.any_eq_false]
      intro q hq
      rcases List.mem_filter.mp hq with ⟨-, hgq⟩
      simp only [decide_eq_true_eq]
      intro e
      rw [e] at hgq
      exact hg hgq
  rw [hiff]

lemma length_filter_not_add (pts : List Vec3) (g : Vec3 → Bool) :
    (pts.filter (fun p => ! g p)).length + (pts.filter g).length =
      pts.length := by
  induction pts with
  | nil => rfl
  | cons p ps ih =>
    by_cases hg : g p = true
    · simp only [List.filter_cons, hg, Bool.not_true]
      simp only [Bool.false_eq_true, if_false, if_true, List.length_cons]
      omega
    · simp only [List.filter_cons, hg, Bool.eq_false_iff.mpr hg, Bool.not_false]
      simp only [Bool.false_eq_true, if_false, if_true, List.length_cons]
      omega

/-- C4: in erase mode `modifySelection` computes the matched points from the
index-aligned NDC projections of the points of the selection itself — so the
point cloud argument is irrelevant to the result — subtracts them from the
selection by element-wise coordinate equality, and the point count of the
updated selection drops by exactly the number of matched points. -/
theorem modifySelection_erase_spec :
    ∀ (object : Shape) (pointCloud : PointCloud)
      (labelSelection : LabelSelection) (proj : Vec3 → Vec3),
      labelSelection.pointsNDC = labelSelection.points.map proj →
      ((modifySelection object pointCloud labelSelection .erase).2.queriedPoints =
        labelSelection.points.filter
          (fun p => shapeContains object (proj p))) ∧
      (∀ pointCloudOther : PointCloud,
        modifySelection object pointCloudOther labelSelection .erase =
          modifySelection object pointCloud labelSelection .erase) ∧
      ((modifySelection object pointCloud labelSelection .erase).1.points =
        differenceOfArrays labelSelection.points
          (queryPointFromSelection object labelSelection)) ∧
      ((modifySelection object pointCloud labelSelection .erase).1.points.length +
          (modifySelection object pointCloud labelSelection .erase).2.queriedPoints.length =
        labelSelection.points.length) := by
  intro object pointCloud labelSelection proj h
  have hq := queryPointFromSelection_proj object labelSelection proj h
  have hqp : (modifySelection object pointCloud labelSelection .erase).2.queriedPoints =
      labelSelection.points.filter (fun p => shapeContains object (proj p)) := by
    show queryPointFromSelection object labelSelection = _
    exact hq
  have hpts : (modifySelection object pointCloud labelSelection .erase).1.points =
      labelSelection.points.filter
        (fun p => ! shapeContains object (proj p)) := by
    show differenceOfArrays labelSelection.points
      (queryPointFromSelection object labelSelection) = _
    rw [hq, differenceOfArrays_filter]
  refine ⟨hqp, fun pointCloudOther => rfl, rfl, ?_⟩
  rw [hpts, hqp]
  exact length_filter_not_add labelSelection.points
    (fun p => shapeContains object (proj p))

/-- C4 witness: erasing with the unit circle from a two-point selection whose
NDC cache is its own points removes exactly the one matched point. -/
theorem modifySelection_erase_spec_witness :
    (modifySelection (Shape.circle ⟨0, 0⟩ 1) (⟨[], [], 1⟩ : PointCloud)
        (⟨1, [⟨0, 0, 0⟩, ⟨2, 2, 0⟩], [⟨0, 0, 0⟩, ⟨2, 2, 0⟩], 1, none⟩ :
          LabelSelection) DrawMode.erase).1.points.length +
      (modifySelection (Shape.circle ⟨0, 0⟩ 1) (⟨[], [], 1⟩ : PointCloud)
        (⟨1, [⟨0, 0, 0⟩, ⟨2, 2, 0⟩], [⟨0, 0, 0⟩, ⟨2, 2, 0⟩], 1, none⟩ :
          LabelSelection) DrawMode.erase).2.queriedPoints.length = 2 := by
  have h := (modifySelection_erase_spec (Shape.circle ⟨0, 0⟩ 1)
    (⟨[], [], 1⟩ : PointCloud)
    (⟨1, [⟨0, 0, 0⟩, ⟨2, 2, 0⟩], [⟨0, 0, 0⟩, ⟨2, 2, 0⟩], 1, none⟩ :
      LabelSelection) (fun v => v) rfl).2.2.2
  simpa using h

/-- C5: `createSelection` on a point cloud whose NDC cache is the projection
of its coordinates: when no cloud point projects inside the shape, nothing is
created or emitted; when at least one does, the dispatched selection-added
event carries a new LabelSelection holding exactly the matched points and the
given label class, together with the raw matched points. -/
theorem createSelection_spec :
    ∀ (object : Shape) (labelClass : LabelClass) (pointCloud : PointCloud)
      (randomId : ℚ) (proj : Vec3 → Vec3),
      pointCloud.bufferNDC = pointCloud.coords.map proj →
      (pointCloud.coords.filter (fun p => shapeContains object (proj p)) = [] →
        createSelection object labelClass pointCloud randomId = none) ∧
      (pointCloud.coords.filter (fun p => shapeContains object (proj p)) ≠ [] →
        ∃ ev, createSelection object labelClass pointCloud randomId = some ev ∧
          ev.type = .selectionAdded ∧
          ev.labelSelection.points =
            pointCloud.coords.filter (fun p => shapeContains object (proj p)) ∧
          ev.labelSelection.labelClass = some labelClass ∧
          ev.queriedPoints =
            pointCloud.coords.filter (fun p => shapeContains object (proj p))) := by
  intro object labelClass pointCloud randomId proj h
  have hq := queryPointFromPcd_proj object pointCloud proj h
  constructor
  · intro hempty
    have hlen : ¬ 0 < (queryPointFromPcd object pointCloud).length := by
      rw [hq, hempty]
      simp
    simp only [createSelection]
    rw [if_neg hlen]
  · intro hne
    have hlen : 0 < (queryPointFromPcd object pointCloud).length := by
      rw [hq]
      exact List.length_pos.mpr hne
    refine ⟨⟨.selectionAdded,
      { id := randomId * 100 + 5
        points := queryPointFromPcd object pointCloud
        pointsNDC := []
        pointSize := pointCloud.pointSize
        labelClass := some labelClass },
      queryPointFromPcd object pointCloud⟩, ?_, rfl, hq, rfl, hq⟩
    simp only [createSelection]
    rw [if_pos hlen]

/-- The label class of the C5 witness. -/
def witnessLabelClass : LabelClass := ⟨1, "car", "pink"⟩

/-- The ten-point cloud of the C5 witness; the NDC cache equals the
coordinates (identity projection), and exactly three points lie inside the
circle of radius 2 around the origin. -/
def witnessCloud : PointCloud :=
  ⟨[⟨0, 0, 0⟩, ⟨1, 0, 0⟩, ⟨0, 1, 0⟩, ⟨3, 0, 0⟩, ⟨0, 3, 0⟩, ⟨4, 4, 0⟩,
      ⟨5, 0, 0⟩, ⟨0, 5, 0⟩, ⟨3, 3, 0⟩, ⟨2, 0, 0⟩],
    [⟨0, 0, 0⟩, ⟨1, 0, 0⟩, ⟨0, 1, 0⟩, ⟨3, 0, 0⟩, ⟨0, 3, 0⟩, ⟨4, 4, 0⟩,
      ⟨5, 0, 0⟩, ⟨0, 5, 0⟩, ⟨3, 3, 0⟩, ⟨2, 0, 0⟩],
    1⟩

/-- C5 witness: a circle of radius 2 around the origin captures exactly 3 of
the 10 cloud points, and the dispatched event carries exactly them and the
given label class. -/
theorem createSelection_spec_witness :
    ∃ ev, createSelection (Shape.circle ⟨0, 0⟩ 2) witnessLabelClass
        witnessCloud 1 = some ev ∧
      ev.type = .selectionAdded ∧
      ev.labelSelection.points = [⟨0, 0, 0⟩, ⟨1, 0, 0⟩, ⟨0, 1, 0⟩] ∧
      ev.labelSelection.labelClass = some witnessLabelClass ∧
      ev.queriedPoints = [⟨0, 0, 0⟩, ⟨1, 0, 0⟩, ⟨0, 1, 0⟩] := by
  have hfilter : witnessCloud.coords.filter
      (fun p => shapeContains (Shape.circle ⟨0, 0⟩ 2) ((fun v => v) p)) =
      [⟨0, 0, 0⟩, ⟨1, 0, 0⟩, ⟨0, 1, 0⟩] := by
    norm_num [witnessCloud, shapeContains, isPointInCircle, List.filter_cons]
  obtain ⟨ev, h1, h2, h3, h4, h5⟩ :=
    (createSelection_spec (Shape.circle ⟨0, 0⟩ 2) witnessLabelClass
      witnessCloud 1 (fun v => v) rfl).2 (by rw [hfilter]; simp)
  exact ⟨ev, h1, h2, by rw [h3, hfilter], h4, by rw [h5, hfilter]⟩
